import Mathlib

/-!
# rnlog: a leveled logger over Go's `log`, `fmt`, `io` and `os`

Shallow embedding of `rnlog.go`.

* Go strings are modelled by `String` (valid UTF-8 text); the byte `%` and the
  byte `\n` are single characters, so the byte-level tests of the Go library
  coincide with the character-level tests used here.
* The process-wide `logger` variable is the record `rnLogger`; the operating
  system (standard streams, file handles, created directories) is the record
  `World`.  Every operation is a pure function on these.
* `time.Now()` and `runtime.Caller(2)` are inputs of each call (`CallEnv`).
* The outcomes of `os.MkdirAll` and `os.OpenFile` and the function
  `filepath.Join` are inputs of `Init` (`OS`).
-/

namespace Rnlog

/-! ## `fmt.Sprintf` (fragment) -/

/-- Operands of the variadic `v ...interface{}`: Go strings and Go ints. -/
inductive Arg where
  | str (s : String)
  | int (n : Int)
  deriving DecidableEq, Repr

/-- Decimal rendering of a Go `int` (what `%d` prints without flags). -/
def formatInt : Int → List Char
  | Int.ofNat n => Nat.toDigits 10 n
  | Int.negSucc n => '-' :: Nat.toDigits 10 (n + 1)

/-- The value of `reflect.TypeOf(arg).String()` for the two operand types. -/
def typeName : Arg → List Char
  | Arg.str _ => "string".data
  | Arg.int _ => "int".data

/-- Padding of `fmt`: `wid` counts characters; with the `-` flag the blanks go to
the right of the text, otherwise to its left. -/
def pad (minus : Bool) (wid : Nat) (s : List Char) : List Char :=
  if minus then s ++ List.replicate (wid - s.length) ' '
  else List.replicate (wid - s.length) ' ' ++ s

/-- Verb `v` of `printArg` under the flags `minus`, `wid`. -/
def printValue (minus : Bool) (wid : Nat) : Arg → List Char
  | Arg.str s => pad minus wid s.data
  | Arg.int n => pad minus wid (formatInt n)

/-- The `printArg` of `fmt` on the fragment: `%s` and `%v` print a string,
`%d` and `%v` print an int; every other pairing is Go's bad-verb rendering
`%!verb(type=value)`. -/
def printArg (minus : Bool) (wid : Nat) (a : Arg) (verb : Char) : List Char :=
  match a with
  | Arg.str s =>
    if verb = 's' ∨ verb = 'v' then pad minus wid s.data
    else "%!".data ++ verb :: '(' :: typeName a ++ '=' :: printValue minus wid a ++ [')']
  | Arg.int n =>
    if verb = 'd' ∨ verb = 'v' then pad minus wid (formatInt n)
    else "%!".data ++ verb :: '(' :: typeName a ++ '=' :: printValue minus wid a ++ [')']

/-- The flag loop of `doPrintf`, for the flag `-`: returns whether it was seen
and the rest of the format. -/
def parseFlags : List Char → Bool → Bool × List Char
  | c :: cs, minus => if c = '-' then parseFlags cs true else (minus, c :: cs)
  | [], minus => (minus, [])

/-- The `parsenum` of `fmt`: reads a decimal width; a number above `10^6` aborts
the directive and skips to the end of the format. -/
def parsenum : List Char → Nat → Nat × List Char
  | c :: cs, num =>
    if '0' ≤ c ∧ c ≤ '9' then
      if num > 1000000 then (0, [])
      else parsenum cs (num * 10 + (c.toNat - '0'.toNat))
    else (num, c :: cs)
  | [], num => (num, [])

/-- The tail `%!(EXTRA type=value, ...)` written when operands are left over. -/
def extraItems : List Arg → List Char
  | [] => []
  | [a] => typeName a ++ '=' :: printValue false 0 a
  | a :: b :: rest => typeName a ++ '=' :: printValue false 0 a ++ ", ".data ++ extraItems (b :: rest)

/-- End of `doPrintf`: the check for operands not consumed by the format. -/
def extraArgs (a : List Arg) (argNum : Nat) : List Char :=
  if argNum < a.length then "%!(EXTRA ".data ++ extraItems (a.drop argNum) ++ [')'] else []

/-- One directive of `doPrintf`, read after its `%`: the text it writes, the rest
of the format (`none` when the format ended before a verb, which ends the loop)
and the next operand index. -/
def directive (a : List Arg) (cs : List Char) (argNum : Nat) :
    List Char × Option (List Char) × Nat :=
  let fl := parseFlags cs false
  let wn := parsenum fl.2 0
  match wn.2 with
  | [] => ("%!(NOVERB)".data, none, argNum)
  | verb :: rest =>
    if verb = '%' then (['%'], some rest, argNum)
    else
      match a.get? argNum with
      | none => ("%!".data ++ verb :: "(MISSING)".data, some rest, argNum)
      | some x => (printArg fl.1 wn.1 x verb, some rest, argNum + 1)

/-- The format loop of `fmt`'s `doPrintf`: text up to a `%` is copied, a `%`
starts a directive.  `fuel` bounds the number of loop steps; a format of length
`n` needs at most `n` steps. -/
def doPrintf (a : List Arg) : Nat → List Char → Nat → List Char
  | 0, _, argNum => extraArgs a argNum
  | _ + 1, [], argNum => extraArgs a argNum
  | fuel + 1, c :: cs, argNum =>
    if c = '%' then
      match directive a cs argNum with
      | (out, none, argNum') => out ++ extraArgs a argNum'
      | (out, some rest, argNum') => out ++ doPrintf a fuel rest argNum'
    else c :: doPrintf a fuel cs argNum

/-- Model of `fmt.Sprintf(format, a...)` on the fragment: operands are strings
and ints; a directive is `%`, optional `-` flags, an optional decimal width and
a verb; the verbs `%`, `s`, `d`, `v` are printed, any other verb gives Go's
`%!verb(type=value)`, a verb without operand `%!verb(MISSING)`, a `%` at the
end `%!(NOVERB)`, unused operands `%!(EXTRA ...)`.  The flags `+ # 0` and
blank, a precision, `*` and explicit operand indexes are outside the
fragment. -/
def Sprintf (format : String) (a : List Arg) : String :=
  ⟨doPrintf a (format.data.length + 1) format.data 0⟩

/-! ## `time.Now().Format("2006-01-02 15:04:05")` -/

/-- Wall-clock reading of `time.Now()` in the local zone. -/
structure Time where
  year : Nat
  month : Nat
  day : Nat
  hour : Nat
  minute : Nat
  second : Nat
  deriving DecidableEq, Repr

/-- The `appendInt` of package `time`: decimal digits, zero-filled on the left
up to `width`. -/
def appendInt (x width : Nat) : List Char :=
  List.replicate (width - (Nat.toDigits 10 x).length) '0' ++ Nat.toDigits 10 x

/-- Layout `2006-01-02 15:04:05`. -/
def Time.Format (t : Time) : String :=
  ⟨appendInt t.year 4 ++ '-' :: appendInt t.month 2 ++ '-' :: appendInt t.day 2 ++ ' ' ::
    appendInt t.hour 2 ++ ':' :: appendInt t.minute 2 ++ ':' :: appendInt t.second 2⟩

/-! ## The prefix -/

/-- Inputs a logging call reads from its surroundings: the clock, and the
result of `runtime.Caller(2)` as `some (FuncForPC(pc).Name(), line)` when `ok`,
`none` otherwise. -/
structure CallEnv where
  now : Time
  caller : Option (String × Int)
  deriving DecidableEq, Repr

/-- The table `levelTag` of `makePrefix`. -/
def levelTag : List String := ["", "DEBUG", "INFO", "WARN", "ERROR", "FATAL"]

/-- Last element of `strings.Split(name, "/")`. -/
def lastSegment (name : String) : String :=
  ⟨(List.splitOn '/' name.data).getLastD []⟩

/-- The function `makePrefix` of `rnlog.go`. -/
def makePrefix (env : CallEnv) (level : Int) : String :=
  if level < 0 ∨ level > 5 then ""
  else
    let t := env.now.Format
    match env.caller with
    | some (name, line) =>
      let funcName := lastSegment name
      Sprintf "[%5s][%s][%s:%d] "
        [Arg.str (levelTag.getD level.toNat ""), Arg.str t, Arg.str funcName, Arg.int line]
    | none =>
      Sprintf "[%5s][%s][UnkownFunction] " [Arg.str (levelTag.getD level.toNat ""), Arg.str t]

/-! ## Streams, files and writers -/

/-- What stands behind an `*os.File` handle. -/
structure File where
  path : String
  closed : Bool
  written : List String
  deriving DecidableEq, Repr

/-- The operating system as the program sees it: the payloads written to the
two standard streams, in order; the table of file handles ever opened (an
`*os.File` is an index into it); the directories made by `os.MkdirAll`. -/
structure World where
  stdout : List String
  stderr : List String
  files : List File
  dirs : List String
  deriving DecidableEq, Repr

/-- The `io.Writer` values the program builds: `os.Stdout`, `os.Stderr`, an
`*os.File`, and `io.MultiWriter(w1, w2)`. -/
inductive Writer where
  | stdout
  | stderr
  | file (fd : Nat)
  | multi (w1 w2 : Writer)
  deriving DecidableEq, Repr

/-- The method `Write(p)`: the new world and whether the write succeeded.  The standard
streams accept every write; a file accepts it unless the handle is closed (or
unknown); `io.MultiWriter` writes to its writers in order and stops at the
first failure. -/
def Writer.Write : Writer → String → World → World × Bool
  | Writer.stdout, p, w => ({ w with stdout := w.stdout ++ [p] }, true)
  | Writer.stderr, p, w => ({ w with stderr := w.stderr ++ [p] }, true)
  | Writer.file fd, p, w =>
    match w.files.get? fd with
    | some f =>
      if f.closed then (w, false)
      else ({ w with files := w.files.set fd { f with written := f.written ++ [p] } }, true)
    | none => (w, false)
  | Writer.multi w1 w2, p, w =>
    match w1.Write p w with
    | (w', false) => (w', false)
    | (w', true) => w2.Write p w'

/-- The method `(*os.File).Close`: marks the handle closed; closing a closed or unknown
handle changes nothing (the error is dropped by the caller). -/
def closeFile (fd : Nat) (w : World) : World :=
  match w.files.get? fd with
  | some f => { w with files := w.files.set fd { f with closed := true } }
  | none => w

/-- The buffer `(*log.Logger).Output` builds from the text `s` for a logger made
by `log.New(out, "", 0)`: no header (empty prefix, no flags), the text, and a
`\n` when the text is empty or does not end in `\n`. -/
def outputBuf (s : String) : String :=
  if s.data.getLast? = some '\n' then s else s ++ "\n"

/-- The method `(*log.Logger).Printf(format, v...)` for a logger made by
`log.New(out, "", 0)`: formats with `fmt.Sprintf`, and hands the buffer of
`Output` to `out` in one `Write`, whose error `Printf` drops. -/
def logPrintf (out : Writer) (format : String) (v : List Arg) (w : World) : World :=
  (out.Write (outputBuf (Sprintf format v)) w).1

/-! ## The logger -/

/-- The struct `rnLogger`; a `*log.Logger` made by `log.New(w, "", 0)` is
identified with its writer `w`, a nil `*os.File` is `none`. -/
structure rnLogger where
  out : Writer
  err : Writer
  logFile : Option Nat
  logLevel : Int
  deriving DecidableEq, Repr

/-- The package initialiser `init()`. -/
def init : rnLogger :=
  { out := Writer.stdout, err := Writer.stderr, logLevel := 0, logFile := none }

/-- Outcomes of the system calls of `Init`: the error text of `os.MkdirAll` and
of `os.OpenFile` (`none` when the call succeeds), and `filepath.Join`. -/
structure OS where
  MkdirAll : World → String → Option String
  OpenFile : World → String → Option String
  Join : String → String → String

/-- The function `Init` of `rnlog.go`: returns the error (`none` for `nil`), the logger and
the world.  A failing `os.MkdirAll` is taken to leave the world as it was; a
successful one records the directory; a successful `os.OpenFile` adds a fresh
open handle.  `logger.logFile` is assigned from `os.OpenFile` before the error
is tested, so a failed open stores nil there. -/
def Init (os : OS) (lg : rnLogger) (w : World) (logFilePath logFileName : String) :
    Option String × rnLogger × World :=
  let logFilePath := if logFilePath = "" then "./" else logFilePath
  if logFileName = "" then (some "[rnlog error]: logFileName is empty", lg, w)
  else
    match os.MkdirAll w logFilePath with
    | some e => (some (Sprintf "[rnlog error]: MkdirAll error: %s" [Arg.str e]), lg, w)
    | none =>
      let w1 := { w with dirs := w.dirs ++ [logFilePath] }
      let name := os.Join logFilePath logFileName
      match os.OpenFile w1 name with
      | some e =>
        (some (Sprintf "[rnlog error]: OpenFile error: %s" [Arg.str e]),
          { lg with logFile := none }, w1)
      | none =>
        let fd := w1.files.length
        let w2 := { w1 with files := w1.files ++ [{ path := name, closed := false, written := [] }] }
        (none,
          { out := Writer.multi Writer.stdout (Writer.file fd),
            err := Writer.multi Writer.stderr (Writer.file fd),
            logFile := some fd,
            logLevel := 0 },
          w2)

/-- The function `SetLoggerLevel` of `rnlog.go`. -/
def SetLoggerLevel (lg : rnLogger) (level : Int) : rnLogger :=
  { lg with logLevel := level }

/-- The function `Log` of `rnlog.go` (level 0). -/
def Log (lg : rnLogger) (w : World) (format : String) (v : List Arg) : World :=
  if lg.logLevel ≤ 0 then logPrintf lg.out format v w else w

/-- The function `Debug` of `rnlog.go` (level 1). -/
def Debug (env : CallEnv) (lg : rnLogger) (w : World) (format : String) (v : List Arg) : World :=
  if lg.logLevel ≤ 1 then logPrintf lg.out (makePrefix env 1 ++ format) v w else w

/-- The function `Info` of `rnlog.go` (level 2). -/
def Info (env : CallEnv) (lg : rnLogger) (w : World) (format : String) (v : List Arg) : World :=
  if lg.logLevel ≤ 2 then logPrintf lg.out (makePrefix env 2 ++ format) v w else w

/-- The function `Warn` of `rnlog.go` (level 3). -/
def Warn (env : CallEnv) (lg : rnLogger) (w : World) (format : String) (v : List Arg) : World :=
  if lg.logLevel ≤ 3 then logPrintf lg.out (makePrefix env 3 ++ format) v w else w

/-- The function `Error` of `rnlog.go` (level 4). -/
def Error (env : CallEnv) (lg : rnLogger) (w : World) (format : String) (v : List Arg) : World :=
  if lg.logLevel ≤ 4 then logPrintf lg.err (makePrefix env 4 ++ format) v w else w

/-- The function `Fatal` of `rnlog.go` (level 5). -/
def Fatal (env : CallEnv) (lg : rnLogger) (w : World) (format : String) (v : List Arg) : World :=
  if lg.logLevel ≤ 5 then logPrintf lg.err (makePrefix env 5 ++ format) v w else w

/-- The function `Close` of `rnlog.go`.  The logger itself is not modified: `logFile` stays
non-nil after the handle is closed. -/
def Close (env : CallEnv) (lg : rnLogger) (w : World) : World :=
  match lg.logFile with
  | some fd => closeFile fd (logPrintf lg.out (makePrefix env 1 ++ "Logger closing...") [] w)
  | none => w

/-! ## Vocabulary of the statements -/

/-- The level-`L` function: `Log`=0, `Debug`=1, `Info`=2, `Warn`=3, `Error`=4,
`Fatal`=5 (no function, hence no effect, for other numbers). -/
def callLevel (L : Nat) (env : CallEnv) (lg : rnLogger) (w : World) (format : String)
    (v : List Arg) : World :=
  match L with
  | 0 => Log lg w format v
  | 1 => Debug env lg w format v
  | 2 => Info env lg w format v
  | 3 => Warn env lg w format v
  | 4 => Error env lg w format v
  | 5 => Fatal env lg w format v
  | _ => w

/-- The format string the level-`L` function hands to `Printf`. -/
def formatOf (L : Nat) (env : CallEnv) (format : String) : String :=
  if L = 0 then format else makePrefix env L ++ format

/-- The sink of level `L`: `logger.out` for levels 0 to 3, `logger.err` for
levels 4 and 5. -/
def sinkOf (L : Nat) (lg : rnLogger) : Writer :=
  if L ≤ 3 then lg.out else lg.err

/-- The console stream behind the sink of level `L`: standard output for levels
0 to 3, standard error for levels 4 and 5. -/
def consoleOf (L : Nat) (w : World) : List String :=
  if L ≤ 3 then w.stdout else w.stderr

/-- The caller is unresolved, or its short function name holds no `%`. -/
def CallEnv.plainName (env : CallEnv) : Prop :=
  ∀ name line, env.caller = some (name, line) → ∀ c ∈ (lastSegment name).data, c ≠ '%'

/-- The shapes the two sinks have in every state the program can reach: the
console alone (after `init`), or the console duplicated into a file (after a
successful `Init`). -/
def rnLogger.Wf (lg : rnLogger) : Prop :=
  (lg.out = Writer.stdout ∨ ∃ fd, lg.out = Writer.multi Writer.stdout (Writer.file fd)) ∧
  (lg.err = Writer.stderr ∨ ∃ fd, lg.err = Writer.multi Writer.stderr (Writer.file fd))

/-- Both sinks duplicate into the handle `fd`, which is open and was opened on
the path `name`. -/
def Attached (fd : Nat) (name : String) (s : rnLogger × World) : Prop :=
  s.1.out = Writer.multi Writer.stdout (Writer.file fd) ∧
  s.1.err = Writer.multi Writer.stderr (Writer.file fd) ∧
  ∃ f, s.2.files.get? fd = some f ∧ f.closed = false ∧ f.path = name

/-- The public operations, as values. -/
inductive Call where
  | Init (os : OS) (logFilePath logFileName : String)
  | SetLoggerLevel (level : Int)
  | Log (format : String) (v : List Arg)
  | Debug (env : CallEnv) (format : String) (v : List Arg)
  | Info (env : CallEnv) (format : String) (v : List Arg)
  | Warn (env : CallEnv) (format : String) (v : List Arg)
  | Error (env : CallEnv) (format : String) (v : List Arg)
  | Fatal (env : CallEnv) (format : String) (v : List Arg)
  | Close (env : CallEnv)

/-- Effect of one public operation on the logger and the world. -/
def Call.run : Call → rnLogger × World → rnLogger × World
  | Call.Init os p n, (lg, w) => (Rnlog.Init os lg w p n).2
  | Call.SetLoggerLevel level, (lg, w) => (Rnlog.SetLoggerLevel lg level, w)
  | Call.Log f v, (lg, w) => (lg, Rnlog.Log lg w f v)
  | Call.Debug env f v, (lg, w) => (lg, Rnlog.Debug env lg w f v)
  | Call.Info env f v, (lg, w) => (lg, Rnlog.Info env lg w f v)
  | Call.Warn env f v, (lg, w) => (lg, Rnlog.Warn env lg w f v)
  | Call.Error env f v, (lg, w) => (lg, Rnlog.Error env lg w f v)
  | Call.Fatal env f v, (lg, w) => (lg, Rnlog.Fatal env lg w f v)
  | Call.Close env, (lg, w) => (lg, Rnlog.Close env lg w)

/-- The operations that only log or set the threshold. -/
def Call.isLogging : Call → Bool
  | Call.Init _ _ _ => false
  | Call.Close _ => false
  | _ => true

/-- Every operation except `SetLoggerLevel` with an argument outside 0..5. -/
def Call.levelArgInRange : Call → Prop
  | Call.SetLoggerLevel level => 0 ≤ level ∧ level ≤ 5
  | _ => True

/-- Effect of a sequence of public operations, first to last. -/
def runCalls (cs : List Call) (s : rnLogger × World) : rnLogger × World :=
  cs.foldl (fun st c => c.run st) s

/-! ## Sample inputs -/

/-- A call made at line 14 of `main.main` of the demonstration program. -/
def sampleEnv : CallEnv :=
  { now := { year := 2024, month := 3, day := 7, hour := 9, minute := 5, second := 1 },
    caller := some ("github.com/thak1411/rnlog/cmd/main.main", 14) }

/-- A call made at line 7 of function `Serve` of a package with import path
`example.com/api.v2`: the Go toolchain writes the dot of the last path element
as `%2e` in function names. -/
def escapedEnv : CallEnv :=
  { now := { year := 2024, month := 3, day := 7, hour := 9, minute := 5, second := 1 },
    caller := some ("example.com/api%2ev2.Serve", 7) }

/-- A call whose caller `runtime.Caller` cannot resolve. -/
def unresolvedEnv : CallEnv :=
  { now := { year := 2024, month := 3, day := 7, hour := 9, minute := 5, second := 1 },
    caller := none }

/-- A fresh process: nothing written, no handle, no directory made. -/
def emptyWorld : World := { stdout := [], stderr := [], files := [], dirs := [] }

/-- An operating system on which both calls of `Init` succeed. -/
def sampleOS : OS :=
  { MkdirAll := fun _ _ => none, OpenFile := fun _ _ => none, Join := fun d n => d ++ "/" ++ n }

/-! ## Facts about formatting -/

theorem digitChar_ne_percent (n : Nat) : Nat.digitChar (n % 10) ≠ '%' := by
  have h : n % 10 < 10 := Nat.mod_lt n (by decide)
  generalize n % 10 = d at h
  interval_cases d <;> decide

/-- The digit loop of `Nat.toDigits` adds no `%`. -/
theorem toDigitsCore_no_percent (fuel : Nat) : ∀ (n : Nat) (acc : List Char),
    (∀ c ∈ acc, c ≠ '%') → ∀ c ∈ Nat.toDigitsCore 10 fuel n acc, c ≠ '%' := by
  induction fuel with
  | zero => intro n acc h; simpa [Nat.toDigitsCore] using h
  | succ k ih =>
    intro n acc h
    have hd : ∀ c ∈ Nat.digitChar (n % 10) :: acc, c ≠ '%' := by
      intro c hc
      rcases List.mem_cons.mp hc with rfl | hc
      · exact digitChar_ne_percent _
      · exact h c hc
    unfold Nat.toDigitsCore
    simp only []
    split_ifs
    · exact hd
    · exact ih _ _ hd

/-- The decimal digits of a number hold no `%`. -/
theorem toDigits_no_percent (n : Nat) : ∀ c ∈ Nat.toDigits 10 n, c ≠ '%' :=
  toDigitsCore_no_percent _ _ _ (by simp)

/-- The decimal rendering of an int holds no `%`. -/
theorem formatInt_no_percent (n : Int) : ∀ c ∈ formatInt n, c ≠ '%' := by
  cases n with
  | ofNat k => exact toDigits_no_percent k
  | negSucc k =>
    intro c hc
    rcases List.mem_cons.mp hc with rfl | hc
    · decide
    · exact toDigits_no_percent _ c hc

/-- A zero-filled number holds no `%`. -/
theorem appendInt_no_percent (x width : Nat) : ∀ c ∈ appendInt x width, c ≠ '%' := by
  intro c hc
  rcases List.mem_append.mp hc with hc | hc
  · rw [List.eq_of_mem_replicate hc]; decide
  · exact toDigits_no_percent _ c hc

/-- A formatted clock reading holds no `%`. -/
theorem Format_no_percent (t : Time) : ∀ c ∈ t.Format.data, c ≠ '%' := by
  simp only [Time.Format, List.forall_mem_append, List.forall_mem_cons]
  exact ⟨⟨⟨⟨⟨appendInt_no_percent _ _, by decide, appendInt_no_percent _ _⟩, by decide,
    appendInt_no_percent _ _⟩, by decide, appendInt_no_percent _ _⟩, by decide,
    appendInt_no_percent _ _⟩, by decide, appendInt_no_percent _ _⟩

/-- Text without `%` at the head of a format is copied as it is, and the rest of
the format is processed as if it stood alone. -/
theorem doPrintf_literal (a : List Arg) (f : List Char) (k : Nat) :
    ∀ (p : List Char) (n : Nat), (∀ c ∈ p, c ≠ '%') →
      doPrintf a (p.length + (k + 1)) (p ++ f) n = p ++ doPrintf a (k + 1) f n := by
  intro p
  induction p with
  | nil => intro n _; simp
  | cons c cs ih =>
    intro n h
    have hc : c ≠ '%' := h c (List.mem_cons_self _ _)
    have hcs : ∀ x ∈ cs, x ≠ '%' := fun x hx => h x (List.mem_cons_of_mem _ hx)
    have e : (c :: cs).length + (k + 1) = (cs.length + (k + 1)) + 1 := by
      simp only [List.length_cons]; omega
    rw [e, List.cons_append, doPrintf, if_neg hc, ih n hcs, List.cons_append]

/-- The same for `Sprintf`: a `%`-free head of the format comes out unchanged in
front of the formatted rest. -/
theorem Sprintf_literal_append (p f : String) (a : List Arg) (h : ∀ c ∈ p.data, c ≠ '%') :
    Sprintf (p ++ f) a = p ++ Sprintf f a := by
  apply String.ext
  simp only [Sprintf, String.data_append, List.length_append]
  rw [Nat.add_assoc]
  exact doPrintf_literal a f.data f.data.length p.data 0 h



/-- The text of the format `[%5s][%s][%s:%d] ` on a tag, a time, a name and a
line. -/
theorem Sprintf_resolved (tag t fn : String) (line : Int) :
    Sprintf "[%5s][%s][%s:%d] " [Arg.str tag, Arg.str t, Arg.str fn, Arg.int line] =
      "[" ++ String.mk (pad false 5 tag.data) ++ "][" ++ t ++ "][" ++ fn ++ ":" ++
        String.mk (formatInt line) ++ "] " := by
  apply String.ext
  have e : "[%5s][%s][%s:%d] ".data =
      ['[', '%', '5', 's', ']', '[', '%', 's', ']', '[', '%', 's', ':', '%', 'd', ']', ' '] := rfl
  simp only [Sprintf, e, String.data_append]
  simp [doPrintf, directive, parseFlags, parsenum, printArg, extraArgs, pad]

/-- The text of the format `[%5s][%s][UnkownFunction] ` on a tag and a time. -/
theorem Sprintf_unresolved (tag t : String) :
    Sprintf "[%5s][%s][UnkownFunction] " [Arg.str tag, Arg.str t] =
      "[" ++ String.mk (pad false 5 tag.data) ++ "][" ++ t ++ "][UnkownFunction] " := by
  apply String.ext
  have e : "[%5s][%s][UnkownFunction] ".data =
      ['[', '%', '5', 's', ']', '[', '%', 's', ']', '[', 'U', 'n', 'k', 'o', 'w', 'n', 'F', 'u',
        'n', 'c', 't', 'i', 'o', 'n', ']', ' '] := rfl
  simp only [Sprintf, e, String.data_append]
  simp [doPrintf, directive, parseFlags, parsenum, printArg, extraArgs, pad]

/-- The two shapes of the prefix for a level in 0..5. -/
theorem makePrefix_in_range (env : CallEnv) (level : Int) (h0 : 0 ≤ level) (h5 : level ≤ 5) :
    makePrefix env level =
      match env.caller with
      | some (name, line) =>
        "[" ++ String.mk (pad false 5 (levelTag.getD level.toNat "").data) ++ "][" ++
          env.now.Format ++ "][" ++ lastSegment name ++ ":" ++ String.mk (formatInt line) ++ "] "
      | none =>
        "[" ++ String.mk (pad false 5 (levelTag.getD level.toNat "").data) ++ "][" ++
          env.now.Format ++ "][UnkownFunction] " := by
  have hr : ¬ (level < 0 ∨ level > 5) := by omega
  unfold makePrefix
  rw [if_neg hr]
  rcases hc : env.caller with _ | ⟨name, line⟩
  · exact Sprintf_unresolved _ _
  · exact Sprintf_resolved _ _ _ _

/-- No level tag holds a `%`. -/
theorem levelTag_no_percent (n : Nat) : ∀ c ∈ (levelTag.getD n "").data, c ≠ '%' := by
  rcases n with _ | _ | _ | _ | _ | _ | n <;> simp [levelTag]

/-- Padding with blanks adds no `%`. -/
theorem pad_no_percent (wid : Nat) (s : List Char) (h : ∀ c ∈ s, c ≠ '%') :
    ∀ c ∈ pad false wid s, c ≠ '%' := by
  intro c hc
  simp only [pad, Bool.false_eq_true, if_false, List.mem_append] at hc
  rcases hc with hc | hc
  · rw [List.eq_of_mem_replicate hc]; decide
  · exact h c hc

/-- When the caller's short function name holds no `%`, neither does the prefix. -/
theorem makePrefix_no_percent (env : CallEnv) (hp : env.plainName) (level : Int) :
    ∀ c ∈ (makePrefix env level).data, c ≠ '%' := by
  by_cases hr : level < 0 ∨ level > 5
  · simp [makePrefix, hr]
  · have h := makePrefix_in_range env level (by omega) (by omega)
    rcases hc : env.caller with _ | ⟨name, line⟩
    · rw [h, hc]
      simp only [String.data_append, List.forall_mem_append]
      exact ⟨⟨⟨⟨by decide, pad_no_percent _ _ (levelTag_no_percent _)⟩, by decide⟩,
        Format_no_percent _⟩, by decide⟩
    · rw [h, hc]
      simp only [String.data_append, List.forall_mem_append]
      exact ⟨⟨⟨⟨⟨⟨⟨⟨by decide, pad_no_percent _ _ (levelTag_no_percent _)⟩, by decide⟩,
        Format_no_percent _⟩, by decide⟩, hp name line hc⟩, by decide⟩,
        formatInt_no_percent _⟩, by decide⟩

/-- The prefix of a level in 0..5 ends in a blank. -/
theorem makePrefix_ends_in_blank (env : CallEnv) (level : Int) (h0 : 0 ≤ level)
    (h5 : level ≤ 5) : ∃ l, (makePrefix env level).data = l ++ [' '] := by
  rw [makePrefix_in_range env level h0 h5]
  rcases env.caller with _ | ⟨name, line⟩
  · exact ⟨_, by
      show (_ ++ "][UnkownFunction] ").data = _
      rw [String.data_append]
      show _ ++ ("][UnkownFunction]".data ++ [' ']) = _
      rw [← List.append_assoc]⟩
  · exact ⟨_, by
      show (_ ++ "] ").data = _
      rw [String.data_append]
      show _ ++ ([']'] ++ [' ']) = _
      rw [← List.append_assoc]⟩

/-- The flag loop returns a suffix of its input. -/
theorem parseFlags_length (cs : List Char) : ∀ (m : Bool), (parseFlags cs m).2.length ≤ cs.length := by
  induction cs with
  | nil => intro m; simp [parseFlags]
  | cons c cs ih =>
    intro m
    unfold parseFlags
    split_ifs
    · exact Nat.le_succ_of_le (ih true)
    · exact Nat.le_refl _

/-- Reading a width returns a suffix of its input. -/
theorem parsenum_length (cs : List Char) : ∀ (num : Nat), (parsenum cs num).2.length ≤ cs.length := by
  induction cs with
  | nil => intro num; simp [parsenum]
  | cons c cs ih =>
    intro num
    unfold parsenum
    split_ifs
    · simp
    · exact Nat.le_succ_of_le (ih _)
    · exact Nat.le_refl _

/-- A directive consumes at least its verb. -/
theorem directive_rest_length (a : List Arg) (cs : List Char) (n : Nat) (out rest : List Char)
    (n' : Nat) (h : directive a cs n = (out, some rest, n')) : rest.length < cs.length := by
  have h1 := parseFlags_length cs false
  have h2 := parsenum_length (parseFlags cs false).2 0
  unfold directive at h
  dsimp only at h
  split at h
  · cases h
  · rename_i verb rest' hv
    rw [hv] at h2
    simp only [List.length_cons] at h2
    split_ifs at h
    · cases h; omega
    · split at h <;> (cases h; omega)

/-- The fuel `Sprintf` gives `doPrintf` is enough: any larger amount gives the
same text, so the loop always runs to the end of the format. -/
theorem doPrintf_fuel (a : List Arg) (fuel : Nat) : ∀ (fuel' : Nat) (cs : List Char) (n : Nat),
    cs.length < fuel → cs.length < fuel' → doPrintf a fuel cs n = doPrintf a fuel' cs n := by
  induction fuel with
  | zero => intro fuel' cs n h; omega
  | succ k ih =>
    intro fuel' cs n h h'
    rcases fuel' with _ | k'
    · omega
    · rcases cs with _ | ⟨c, cs⟩
      · simp [doPrintf]
      · simp only [List.length_cons] at h h'
        unfold doPrintf
        split_ifs
        · rcases hd : directive a cs n with ⟨out, _ | rest, n'⟩
          · rfl
          · have hl := directive_rest_length a cs n out rest n' hd
            simp only []
            rw [ih k' rest n' (by omega) (by omega)]
        · rw [ih k' cs n (by omega) (by omega)]

/-! ## Facts about writers, files and the logger -/

theorem outputBuf_of_no_newline (s : String) (h : s.data.getLast? ≠ some '\n') :
    outputBuf s = s ++ "\n" := by
  unfold outputBuf
  rw [if_neg h]

/-- Writing to a file leaves both standard streams as they were. -/
theorem Write_file_streams (fd : Nat) (p : String) (w : World) :
    ((Writer.file fd).Write p w).1.stdout = w.stdout ∧
      ((Writer.file fd).Write p w).1.stderr = w.stderr := by
  unfold Writer.Write
  rcases w.files.get? fd with _ | f
  · exact ⟨rfl, rfl⟩
  · by_cases hc : f.closed = true
    · simp [hc]
    · simp [hc]

/-- A write through a sink of standard output appends the payload to standard
output and leaves standard error as it was. -/
theorem Write_out (out : Writer)
    (h : out = Writer.stdout ∨ ∃ fd, out = Writer.multi Writer.stdout (Writer.file fd))
    (p : String) (w : World) :
    (out.Write p w).1.stdout = w.stdout ++ [p] ∧ (out.Write p w).1.stderr = w.stderr := by
  rcases h with rfl | ⟨fd, rfl⟩
  · exact ⟨rfl, rfl⟩
  · have hf := Write_file_streams fd p { w with stdout := w.stdout ++ [p] }
    simpa [Writer.Write] using hf

/-- A write through a sink of standard error appends the payload to standard
error and leaves standard output as it was. -/
theorem Write_err (err : Writer)
    (h : err = Writer.stderr ∨ ∃ fd, err = Writer.multi Writer.stderr (Writer.file fd))
    (p : String) (w : World) :
    (err.Write p w).1.stderr = w.stderr ++ [p] ∧ (err.Write p w).1.stdout = w.stdout := by
  rcases h with rfl | ⟨fd, rfl⟩
  · exact ⟨rfl, rfl⟩
  · have hf := Write_file_streams fd p { w with stderr := w.stderr ++ [p] }
    simpa [Writer.Write, and_comm] using hf

/-- Each of the six level functions is the threshold test followed by `Printf` on
its sink with its format string. -/
theorem callLevel_eq (L : Nat) (hL : L ≤ 5) (env : CallEnv) (lg : rnLogger) (w : World)
    (format : String) (v : List Arg) :
    callLevel L env lg w format v =
      if lg.logLevel ≤ (L : Int) then logPrintf (sinkOf L lg) (formatOf L env format) v w
      else w := by
  interval_cases L <;> simp [callLevel, Log, Debug, Info, Warn, Error, Fatal, sinkOf, formatOf]

/-- Effect of `Printf` through the sink of level `L` on the standard streams. -/
theorem logPrintf_streams (L : Nat) (lg : rnLogger) (hwf : lg.Wf) (fm : String)
    (v : List Arg) (w : World) :
    (L ≤ 3 →
      (logPrintf (sinkOf L lg) fm v w).stdout = w.stdout ++ [outputBuf (Sprintf fm v)] ∧
      (logPrintf (sinkOf L lg) fm v w).stderr = w.stderr) ∧
    (4 ≤ L →
      (logPrintf (sinkOf L lg) fm v w).stderr = w.stderr ++ [outputBuf (Sprintf fm v)] ∧
      (logPrintf (sinkOf L lg) fm v w).stdout = w.stdout) := by
  constructor
  · intro h
    have hs : sinkOf L lg = lg.out := by simp [sinkOf, h]
    rw [hs]
    exact Write_out lg.out hwf.1 _ w
  · intro h
    have hs : sinkOf L lg = lg.err := by
      have : ¬ L ≤ 3 := by omega
      simp [sinkOf, this]
    rw [hs]
    exact Write_err lg.err hwf.2 _ w

/-- A write through a console duplicated into an open handle appends the payload
to the writes of that handle. -/
theorem Write_multi_open (console : Writer)
    (hc : console = Writer.stdout ∨ console = Writer.stderr) (fd : Nat) (p : String)
    (w : World) (f : File) (hf : w.files.get? fd = some f) (ho : f.closed = false) :
    ((Writer.multi console (Writer.file fd)).Write p w).1.files.get? fd =
      some { f with written := f.written ++ [p] } := by
  have hlt : fd < w.files.length := by
    rcases Nat.lt_or_ge fd w.files.length with h | h
    · exact h
    · rw [List.get?_eq_none.mpr h] at hf; cases hf
  have hel : w.files[fd] = f := by
    rw [List.get?_eq_getElem?, List.getElem?_eq_getElem hlt] at hf
    exact Option.some.inj hf
  rcases hc with rfl | rfl <;> simp [Writer.Write, hlt, hel, ho]

/-- A write forgets no handle and reopens none. -/
theorem Write_keeps_handles (out : Writer) : ∀ (p : String) (w : World) (fd : Nat) (f : File),
    w.files.get? fd = some f →
    ∃ f', (out.Write p w).1.files.get? fd = some f' ∧ (f.closed = true → f'.closed = true) := by
  induction out with
  | stdout => intro p w fd f h; exact ⟨f, h, id⟩
  | stderr => intro p w fd f h; exact ⟨f, h, id⟩
  | file fd' =>
    intro p w fd f h
    unfold Writer.Write
    rcases hg : w.files.get? fd' with _ | g
    · exact ⟨f, h, id⟩
    · by_cases hc : g.closed = true
      · simp only [hc, if_true]; exact ⟨f, h, id⟩
      · simp only [hc]
        by_cases e : fd' = fd
        · subst e
          rw [hg] at h
          cases h
          have hlt : fd' < w.files.length := by
            rcases Nat.lt_or_ge fd' w.files.length with h | h
            · exact h
            · rw [List.get?_eq_none.mpr h] at hg; cases hg
          refine ⟨{ path := f.path, closed := false, written := f.written ++ [p] }, ?_,
            fun h => absurd h hc⟩
          simp [hlt]
        · exact ⟨f, by simpa [List.getElem?_set_ne e] using h, id⟩
  | multi w1 w2 ih1 ih2 =>
    intro p w fd f h
    unfold Writer.Write
    obtain ⟨f1, h1, c1⟩ := ih1 p w fd f h
    rcases hw : w1.Write p w with ⟨w', ok⟩
    rw [hw] at h1
    cases ok
    · exact ⟨f1, h1, c1⟩
    · obtain ⟨f2, h2, c2⟩ := ih2 p w' fd f1 h1
      exact ⟨f2, h2, fun hc => c2 (c1 hc)⟩

/-- Closing a handle leaves both standard streams as they were. -/
theorem closeFile_streams (fd : Nat) (w : World) :
    (closeFile fd w).stdout = w.stdout ∧ (closeFile fd w).stderr = w.stderr := by
  unfold closeFile
  rcases w.files.get? fd with _ | f <;> exact ⟨rfl, rfl⟩

/-- A known handle is closed after `Close`. -/
theorem closeFile_closes (fd : Nat) (w : World) (f : File) (hf : w.files.get? fd = some f) :
    (closeFile fd w).files.get? fd = some { f with closed := true } := by
  have hlt : fd < w.files.length := by
    rcases Nat.lt_or_ge fd w.files.length with h | h
    · exact h
    · rw [List.get?_eq_none.mpr h] at hf; cases hf
  have hel : w.files[fd] = f := by
    rw [List.get?_eq_getElem?, List.getElem?_eq_getElem hlt] at hf
    exact Option.some.inj hf
  simp [closeFile, hlt, hel]

/-- When the caller's short function name holds no `%`, formatting the prefix
together with the format gives the prefix followed by the formatted message. -/
theorem Sprintf_with_makePrefix (env : CallEnv) (hp : env.plainName) (level : Int)
    (format : String) (v : List Arg) :
    Sprintf (makePrefix env level ++ format) v = makePrefix env level ++ Sprintf format v :=
  Sprintf_literal_append _ _ _ (makePrefix_no_percent env hp level)

/-- The last character of a concatenation. -/
theorem getLast?_append_of_last (l m : List Char) (c : Char)
    (hm : m.getLast? ≠ some c) (hl : m = [] → l.getLast? ≠ some c) :
    (l ++ m).getLast? ≠ some c := by
  by_cases hm0 : m = []
  · subst hm0
    simpa using hl rfl
  · rw [List.getLast?_append_of_ne_nil l hm0]
    exact hm

/-- The name `main.main` holds no `%`. -/
theorem sampleEnv_plainName : sampleEnv.plainName := by
  intro name line h
  simp only [sampleEnv, Option.some.injEq, Prod.mk.injEq] at h
  obtain ⟨rfl, rfl⟩ := h
  decide

/-- The call `Printf` through a console duplicated into an open handle appends its buffer
to the writes of that handle. -/
theorem logPrintf_attached (console : Writer)
    (hc : console = Writer.stdout ∨ console = Writer.stderr) (fd : Nat) (fm : String)
    (v : List Arg) (w : World) (f : File) (hf : w.files.get? fd = some f)
    (ho : f.closed = false) :
    (logPrintf (Writer.multi console (Writer.file fd)) fm v w).files.get? fd =
      some { f with written := f.written ++ [outputBuf (Sprintf fm v)] } :=
  Write_multi_open console hc fd _ w f hf ho

/-- A level function keeps the file attached, and the record it emits is appended
to the writes of the file. -/
theorem callLevel_attached (L : Nat) (hL : L ≤ 5) (env : CallEnv) (lg : rnLogger) (w : World)
    (format : String) (v : List Arg) (fd : Nat) (name : String)
    (ha : Attached fd name (lg, w)) :
    Attached fd name (lg, callLevel L env lg w format v) ∧
    (lg.logLevel ≤ (L : Int) → ∃ f f',
      w.files.get? fd = some f ∧ (callLevel L env lg w format v).files.get? fd = some f' ∧
      f.closed = false ∧ f.path = name ∧
      f'.written = f.written ++ [outputBuf (Sprintf (formatOf L env format) v)]) := by
  obtain ⟨ho, he, f, hf, hcl, hp⟩ := ha
  rw [callLevel_eq L hL]
  by_cases hemit : lg.logLevel ≤ (L : Int)
  · rw [if_pos hemit]
    have hw : (logPrintf (sinkOf L lg) (formatOf L env format) v w).files.get? fd =
        some { f with written := f.written ++ [outputBuf (Sprintf (formatOf L env format) v)] } := by
      by_cases h3 : L ≤ 3
      · simp only [sinkOf, if_pos h3]
        rw [show lg.out = _ from ho]
        exact logPrintf_attached _ (Or.inl rfl) fd _ v w f hf hcl
      · simp only [sinkOf, if_neg h3]
        rw [show lg.err = _ from he]
        exact logPrintf_attached _ (Or.inr rfl) fd _ v w f hf hcl
    exact ⟨⟨ho, he, _, hw, hcl, hp⟩, fun _ => ⟨f, _, hf, hw, hcl, hp, rfl⟩⟩
  · rw [if_neg hemit]
    exact ⟨⟨ho, he, f, hf, hcl, hp⟩, fun h => absurd h hemit⟩

/-- Logging calls and threshold changes keep the file attached. -/
theorem run_attached (c : Call) (hc : c.isLogging = true) (fd : Nat) (name : String)
    (s : rnLogger × World) (ha : Attached fd name s) : Attached fd name (c.run s) := by
  obtain ⟨lg, w⟩ := s
  cases c with
  | Init os p n => cases hc
  | Close env => cases hc
  | SetLoggerLevel level => exact ha
  | Log f v => exact (callLevel_attached 0 (by decide) sampleEnv lg w f v fd name ha).1
  | Debug env f v => exact (callLevel_attached 1 (by decide) env lg w f v fd name ha).1
  | Info env f v => exact (callLevel_attached 2 (by decide) env lg w f v fd name ha).1
  | Warn env f v => exact (callLevel_attached 3 (by decide) env lg w f v fd name ha).1
  | Error env f v => exact (callLevel_attached 4 (by decide) env lg w f v fd name ha).1
  | Fatal env f v => exact (callLevel_attached 5 (by decide) env lg w f v fd name ha).1

/-- Sequences of logging calls and threshold changes keep the file attached. -/
theorem runCalls_attached (cs : List Call) : ∀ (s : rnLogger × World) (fd : Nat) (name : String),
    (∀ c ∈ cs, c.isLogging = true) → Attached fd name s → Attached fd name (runCalls cs s) := by
  induction cs with
  | nil => intro s fd name _ ha; exact ha
  | cons c cs ih =>
    intro s fd name hcs ha
    exact ih (c.run s) fd name (fun x hx => hcs x (List.mem_cons_of_mem _ hx))
      (run_attached c (hcs c (List.mem_cons_self _ _)) fd name s ha)

/-- With a file attached the sinks have the duplicated shape. -/
theorem Attached_wf (s : rnLogger × World) (fd : Nat) (name : String)
    (ha : Attached fd name s) : s.1.Wf :=
  ⟨Or.inr ⟨fd, ha.1⟩, Or.inr ⟨fd, ha.2.1⟩⟩

/-- State after a successful `Init`: threshold 0, the fresh handle stored, both
sinks duplicated into it. -/
theorem Init_success (os : OS) (lg : rnLogger) (w : World) (p n : String)
    (hok : (Init os lg w p n).1 = none) :
    (Init os lg w p n).2.1.logLevel = 0 ∧
    (Init os lg w p n).2.1.logFile = some w.files.length ∧
    Attached w.files.length (os.Join (if p = "" then "./" else p) n) (Init os lg w p n).2 := by
  unfold Init at hok ⊢
  dsimp only at hok ⊢
  split at hok
  · cases hok
  · rename_i hn
    rw [if_neg hn]
    split at hok
    · cases hok
    · split at hok
      · cases hok
      · refine ⟨rfl, rfl, rfl, rfl,
          ⟨{ path := os.Join (if p = "" then "./" else p) n, closed := false, written := [] },
            ?_, rfl, rfl⟩⟩
        simp

/-- After `Init` the threshold is the old one or 0. -/
theorem Init_logLevel (os : OS) (lg : rnLogger) (w : World) (p n : String) :
    (Init os lg w p n).2.1.logLevel = lg.logLevel ∨ (Init os lg w p n).2.1.logLevel = 0 := by
  unfold Init
  dsimp only
  split
  · exact Or.inl rfl
  · split
    · exact Or.inl rfl
    · split
      · exact Or.inl rfl
      · exact Or.inr rfl

/-- When the caller's short function name holds no `%`, the closing record is the
DEBUG prefix, `Logger closing...` and a newline. -/
theorem closing_record (env : CallEnv) (hp : env.plainName) :
    outputBuf (Sprintf (makePrefix env 1 ++ "Logger closing...") []) =
      makePrefix env 1 ++ "Logger closing..." ++ "\n" := by
  have hs : Sprintf (makePrefix env 1 ++ "Logger closing...") [] =
      makePrefix env 1 ++ "Logger closing..." := by
    rw [Sprintf_with_makePrefix env hp]
    have : Sprintf "Logger closing..." [] = "Logger closing..." := by decide
    rw [this]
  rw [hs]
  apply outputBuf_of_no_newline
  rw [String.data_append]
  exact getLast?_append_of_last _ _ _ (by decide) (fun h => by cases h)

/-- The initial logger has the console-only sinks. -/
theorem init_wf : init.Wf := ⟨Or.inl rfl, Or.inl rfl⟩

/-- Every public operation keeps the sinks in one of their two shapes. -/
theorem run_wf (c : Call) (lg : rnLogger) (w : World) (hwf : lg.Wf) : (c.run (lg, w)).1.Wf := by
  cases c with
  | Init os p n =>
    simp only [Call.run]
    unfold Init
    dsimp only
    split
    · exact hwf
    · split
      · exact hwf
      · split
        · exact hwf
        · exact ⟨Or.inr ⟨_, rfl⟩, Or.inr ⟨_, rfl⟩⟩
  | _ => exact hwf

/-- Every state reached from the initial one has the sinks in one of their two
shapes. -/
theorem runCalls_wf (cs : List Call) : ∀ (s : rnLogger × World), s.1.Wf → (runCalls cs s).1.Wf := by
  induction cs with
  | nil => intro s h; exact h
  | cons c cs ih => intro s h; exact ih (c.run s) (run_wf c s.1 s.2 h)

/-- When the caller's short function name holds no `%`, the text of an emitted
call of level 1..5 is the prefix followed by the formatted message. -/
theorem record_with_plain_name (L : Nat) (h1 : 1 ≤ L) (env : CallEnv) (hp : env.plainName)
    (format : String) (v : List Arg) :
    Sprintf (formatOf L env format) v = makePrefix env L ++ Sprintf format v := by
  have hne : ¬ L = 0 := by omega
  simp only [formatOf, if_neg hne]
  exact Sprintf_with_makePrefix env hp L format v

/-! ## The claims -/

/-- C1: for a level `L` in 0..5 and any stored threshold, the level-`L` function
appends one record to the console stream of its sink when the threshold is at
most `L`, leaves the whole world untouched when the threshold is above `L`, and
so changes the world if and only if the threshold is at most `L`. -/
theorem level_call_writes_iff (L : Nat) (hL : L ≤ 5) (env : CallEnv) (lg : rnLogger)
    (hwf : lg.Wf) (w : World) (format : String) (v : List Arg) :
    (lg.logLevel ≤ (L : Int) →
      consoleOf L (callLevel L env lg w format v) =
        consoleOf L w ++ [outputBuf (Sprintf (formatOf L env format) v)]) ∧
    ((L : Int) < lg.logLevel → callLevel L env lg w format v = w) ∧
    (callLevel L env lg w format v ≠ w ↔ lg.logLevel ≤ (L : Int)) := by
  have hs := logPrintf_streams L lg hwf (formatOf L env format) v w
  have hemit : lg.logLevel ≤ (L : Int) →
      consoleOf L (callLevel L env lg w format v) =
        consoleOf L w ++ [outputBuf (Sprintf (formatOf L env format) v)] := by
    intro h
    rw [callLevel_eq L hL, if_pos h]
    by_cases h3 : L ≤ 3
    · simp only [consoleOf, if_pos h3]
      exact (hs.1 h3).1
    · simp only [consoleOf, if_neg h3]
      exact (hs.2 (by omega)).1
  have hquiet : (L : Int) < lg.logLevel → callLevel L env lg w format v = w := by
    intro h
    rw [callLevel_eq L hL, if_neg (by omega)]
  refine ⟨hemit, hquiet, ?_⟩
  constructor
  · intro hne
    by_contra hgt
    exact hne (hquiet (by omega))
  · intro h heq
    have := hemit h
    rw [heq] at this
    have hlen := congrArg List.length this
    simp at hlen

/-- C1, at threshold 3: `Debug("x")` writes nothing and `Warn("y")` writes one
record. -/
theorem level_call_writes_iff_witness :
    callLevel 1 sampleEnv (SetLoggerLevel init 3) emptyWorld "x" [] = emptyWorld ∧
    consoleOf 3 (callLevel 3 sampleEnv (SetLoggerLevel init 3) emptyWorld "y" []) =
      ["[ WARN][2024-03-07 09:05:01][main.main:14] y\n"] :=
  ⟨(level_call_writes_iff 1 (by decide) sampleEnv (SetLoggerLevel init 3)
      ⟨Or.inl rfl, Or.inl rfl⟩ emptyWorld "x" []).2.1 (by decide),
    ((level_call_writes_iff 3 (by decide) sampleEnv (SetLoggerLevel init 3)
      ⟨Or.inl rfl, Or.inl rfl⟩ emptyWorld "y" []).1 (by decide)).trans (by decide)⟩

/-- C2: an emitted call of level 0 to 3 appends its record to standard output and
leaves standard error as it was; an emitted call of level 4 or 5 appends its
record to standard error and leaves standard output as it was. -/
theorem sink_chosen_by_level (L : Nat) (hL : L ≤ 5) (env : CallEnv) (lg : rnLogger)
    (hwf : lg.Wf) (w : World) (format : String) (v : List Arg)
    (hemit : lg.logLevel ≤ (L : Int)) :
    (L ≤ 3 →
      (callLevel L env lg w format v).stdout =
        w.stdout ++ [outputBuf (Sprintf (formatOf L env format) v)] ∧
      (callLevel L env lg w format v).stderr = w.stderr) ∧
    (4 ≤ L →
      (callLevel L env lg w format v).stderr =
        w.stderr ++ [outputBuf (Sprintf (formatOf L env format) v)] ∧
      (callLevel L env lg w format v).stdout = w.stdout) := by
  rw [callLevel_eq L hL, if_pos hemit]
  exact logPrintf_streams L lg hwf (formatOf L env format) v w

/-- C2, on the fresh logger: `Error` reaches standard error only, `Info`
standard output only. -/
theorem sink_chosen_by_level_witness :
    ((callLevel 4 sampleEnv init emptyWorld "e" []).stderr =
        ["[ERROR][2024-03-07 09:05:01][main.main:14] e\n"] ∧
      (callLevel 4 sampleEnv init emptyWorld "e" []).stdout = []) ∧
    ((callLevel 2 sampleEnv init emptyWorld "i" []).stdout =
        ["[ INFO][2024-03-07 09:05:01][main.main:14] i\n"] ∧
      (callLevel 2 sampleEnv init emptyWorld "i" []).stderr = []) :=
  ⟨⟨(((sink_chosen_by_level 4 (by decide) sampleEnv init ⟨Or.inl rfl, Or.inl rfl⟩ emptyWorld
        "e" [] (by decide)).2 (by decide)).1).trans (by decide),
      ((sink_chosen_by_level 4 (by decide) sampleEnv init ⟨Or.inl rfl, Or.inl rfl⟩ emptyWorld
        "e" [] (by decide)).2 (by decide)).2⟩,
    ⟨(((sink_chosen_by_level 2 (by decide) sampleEnv init ⟨Or.inl rfl, Or.inl rfl⟩ emptyWorld
        "i" [] (by decide)).1 (by decide)).1).trans (by decide),
      ((sink_chosen_by_level 2 (by decide) sampleEnv init ⟨Or.inl rfl, Or.inl rfl⟩ emptyWorld
        "i" [] (by decide)).1 (by decide)).2⟩⟩

/-- C3: whatever the directory path, `Init` with an empty file name returns the
error `[rnlog error]: logFileName is empty` and hands back the logger and the
world it was given: no directory made, no handle opened, sinks, file handle and
threshold as before. -/
theorem Init_empty_file_name (os : OS) (lg : rnLogger) (w : World) (logFilePath : String) :
    Init os lg w logFilePath "" = (some "[rnlog error]: logFileName is empty", lg, w) := by
  simp [Init]

/-- C4, as stated, fails: after a successful `Init("log", "rnlog.log")` and a
`Close`, the record of `Log("x")` reaches standard output but not the file,
whose handle is closed. -/
theorem Init_then_Close_counterexample :
    (Init sampleOS init emptyWorld "log" "rnlog.log").1 = none ∧
    (runCalls [Call.Close sampleEnv, Call.Log "x" []]
      (Init sampleOS init emptyWorld "log" "rnlog.log").2).2.stdout =
      ["[DEBUG][2024-03-07 09:05:01][main.main:14] Logger closing...\n", "x\n"] ∧
    (runCalls [Call.Close sampleEnv, Call.Log "x" []]
      (Init sampleOS init emptyWorld "log" "rnlog.log").2).2.files =
      [{ path := "log/rnlog.log", closed := true,
         written := ["[DEBUG][2024-03-07 09:05:01][main.main:14] Logger closing...\n"] }] := by
  decide

/-- C4, amended: when `Init` returns no error, from whatever prior state, the
threshold is 0 and the file handle is the one just opened on
`filepath.Join(dir, name)`; as long as only level functions and
`SetLoggerLevel` are called afterwards (no `Close`, no further `Init`), every
record emitted by a level function of level 0..5 is appended, the same text, to
the console stream of its sink (standard output for levels 0 to 3, standard
error for 4 and 5) and to the writes of that file. -/
theorem Init_success_duplicates (os : OS) (lg : rnLogger) (w : World) (p n : String)
    (hok : (Init os lg w p n).1 = none) (cs : List Call)
    (hcs : ∀ c ∈ cs, c.isLogging = true) (L : Nat) (hL : L ≤ 5) (env : CallEnv)
    (format : String) (v : List Arg) :
    (Init os lg w p n).2.1.logLevel = 0 ∧
    (Init os lg w p n).2.1.logFile = some w.files.length ∧
    ((runCalls cs (Init os lg w p n).2).1.logLevel ≤ (L : Int) →
      ∃ f f',
        (runCalls cs (Init os lg w p n).2).2.files.get? w.files.length = some f ∧
        (callLevel L env (runCalls cs (Init os lg w p n).2).1
          (runCalls cs (Init os lg w p n).2).2 format v).files.get? w.files.length = some f' ∧
        f.closed = false ∧ f.path = os.Join (if p = "" then "./" else p) n ∧
        consoleOf L (callLevel L env (runCalls cs (Init os lg w p n).2).1
            (runCalls cs (Init os lg w p n).2).2 format v) =
          consoleOf L (runCalls cs (Init os lg w p n).2).2 ++
            [outputBuf (Sprintf (formatOf L env format) v)] ∧
        f'.written = f.written ++ [outputBuf (Sprintf (formatOf L env format) v)]) := by
  obtain ⟨h0, hfile, ha⟩ := Init_success os lg w p n hok
  refine ⟨h0, hfile, ?_⟩
  intro hemit
  have ha' := runCalls_attached cs _ _ _ hcs ha
  generalize runCalls cs (Init os lg w p n).2 = s at ha' hemit
  obtain ⟨lg', w'⟩ := s
  obtain ⟨f, f', hf, hf', hcl, hp, hw⟩ :=
    (callLevel_attached L hL env lg' w' format v _ _ ha').2 hemit
  have hwf : lg'.Wf := Attached_wf (lg', w') _ _ ha'
  have hs := logPrintf_streams L lg' hwf (formatOf L env format) v w'
  refine ⟨f, f', hf, hf', hcl, hp, ?_, hw⟩
  show consoleOf L (callLevel L env lg' w' format v) = _
  rw [callLevel_eq L hL, if_pos hemit]
  by_cases h3 : L ≤ 3
  · simp only [consoleOf, if_pos h3]
    exact (hs.1 h3).1
  · simp only [consoleOf, if_neg h3]
    exact (hs.2 (by omega)).1

/-- C4, amended, on the demonstration program: after `Init("log", "rnlog.log")` and an
`Info` call, `Error("fail: %d", 42)` appends the same record to standard error
and to the file. -/
theorem Init_success_duplicates_witness :
    (Init sampleOS init emptyWorld "log" "rnlog.log").1 = none ∧
    ∃ f f',
      (runCalls [Call.Info sampleEnv "started" []]
        (Init sampleOS init emptyWorld "log" "rnlog.log").2).2.files.get? 0 = some f ∧
      (callLevel 4 sampleEnv
        (runCalls [Call.Info sampleEnv "started" []]
          (Init sampleOS init emptyWorld "log" "rnlog.log").2).1
        (runCalls [Call.Info sampleEnv "started" []]
          (Init sampleOS init emptyWorld "log" "rnlog.log").2).2
        "fail: %d" [Arg.int 42]).files.get? 0 = some f' ∧
      f.closed = false ∧ f.path = "log/rnlog.log" ∧
      consoleOf 4 (callLevel 4 sampleEnv
        (runCalls [Call.Info sampleEnv "started" []]
          (Init sampleOS init emptyWorld "log" "rnlog.log").2).1
        (runCalls [Call.Info sampleEnv "started" []]
          (Init sampleOS init emptyWorld "log" "rnlog.log").2).2
        "fail: %d" [Arg.int 42]) =
        consoleOf 4 (runCalls [Call.Info sampleEnv "started" []]
          (Init sampleOS init emptyWorld "log" "rnlog.log").2).2 ++
          [outputBuf (Sprintf (formatOf 4 sampleEnv "fail: %d") [Arg.int 42])] ∧
      f'.written =
        f.written ++ [outputBuf (Sprintf (formatOf 4 sampleEnv "fail: %d") [Arg.int 42])] :=
  ⟨by decide,
    (Init_success_duplicates sampleOS init emptyWorld "log" "rnlog.log" (by decide)
      [Call.Info sampleEnv "started" []] (by decide) 4 (by decide) sampleEnv "fail: %d"
      [Arg.int 42]).2.2 (by decide)⟩

/-- C5, as stated (tag padded on the right, `[INFO ]`), fails: for `Info` called
at line 14 of `main.main` the code does not return
`[INFO ][2024-03-07 09:05:01][main.main:14] `. -/
theorem makePrefix_right_padded_counterexample :
    makePrefix sampleEnv 2 ≠
      "[" ++ "INFO " ++ "][" ++ sampleEnv.now.Format ++ "][" ++ "main.main" ++ ":" ++ "14" ++ "] " := by
  decide

/-- C5, amended: for every level in 1..5, clock reading, caller name and line,
`makePrefix` returns `[` + P + `][` + ts + `][` + fn + `:` + n + `] ` where P is the
level tag (DEBUG, INFO, WARN, ERROR, FATAL for 1..5) padded on the LEFT with
blanks to 5 characters, ts the formatted clock reading, fn the part of the
caller name after its last `/` and n the line in decimal. -/
theorem makePrefix_left_padded (L : Nat) (h1 : 1 ≤ L) (h5 : L ≤ 5) (now : Time)
    (name : String) (line : Int) :
    makePrefix { now := now, caller := some (name, line) } L =
      "[" ++ String.mk (List.replicate (5 - (levelTag.getD L "").length) ' ') ++
        levelTag.getD L "" ++ "][" ++ now.Format ++ "][" ++ lastSegment name ++ ":" ++
        String.mk (formatInt line) ++ "] " ∧
    [levelTag.getD 1 "", levelTag.getD 2 "", levelTag.getD 3 "", levelTag.getD 4 "",
      levelTag.getD 5 ""] = ["DEBUG", "INFO", "WARN", "ERROR", "FATAL"] := by
  refine ⟨?_, rfl⟩
  rw [makePrefix_in_range _ _ (by omega) (by omega)]
  apply String.ext
  simp only [Int.toNat_ofNat, String.data_append, pad, String.length, Bool.false_eq_true,
    if_false, List.append_assoc]

/-- C5, amended, at `Info` and `Warn`: the fields are `[ INFO]` and `[ WARN]`. -/
theorem makePrefix_left_padded_witness :
    makePrefix sampleEnv 2 = "[ INFO][2024-03-07 09:05:01][main.main:14] " ∧
    makePrefix sampleEnv 3 = "[ WARN][2024-03-07 09:05:01][main.main:14] " :=
  ⟨(makePrefix_left_padded 2 (by decide) (by decide) sampleEnv.now
      "github.com/thak1411/rnlog/cmd/main.main" 14).1.trans (by decide),
    (makePrefix_left_padded 3 (by decide) (by decide) sampleEnv.now
      "github.com/thak1411/rnlog/cmd/main.main" 14).1.trans (by decide)⟩

/-- C9: with an unresolved caller the code writes the location field
`UnkownFunction`, not `UnknownFunction`: `makePrefix(1)` is
`[DEBUG][2024-03-07 09:05:01][UnkownFunction] `. -/
theorem makePrefix_unresolved_misspelt :
    makePrefix unresolvedEnv 1 = "[DEBUG][2024-03-07 09:05:01][UnkownFunction] " ∧
    makePrefix unresolvedEnv 1 ≠ "[DEBUG][2024-03-07 09:05:01][UnknownFunction] " := by
  decide

/-- C6: `Debug("hi")` called at line 7 of `example.com/api%2ev2.Serve`: the
prefix is `[DEBUG][2024-03-07 09:05:01][api%2ev2.Serve:7] `, but the record
written does not begin with it, because the prefix is part of the format string
and its `%2e` is read as a directive. -/
theorem Debug_escaped_name_record :
    makePrefix escapedEnv 1 = "[DEBUG][2024-03-07 09:05:01][api%2ev2.Serve:7] " ∧
    (Debug escapedEnv init emptyWorld "hi" []).stdout =
      ["[DEBUG][2024-03-07 09:05:01][api%!e(MISSING)v2.Serve:7] hi\n"] ∧
    ¬ (makePrefix escapedEnv 1).data <+:
      "[DEBUG][2024-03-07 09:05:01][api%!e(MISSING)v2.Serve:7] hi\n".data := by
  decide

/-- C8, as stated, fails: from the initial state, whose threshold is in 0..5,
`SetLoggerLevel(7)` yields a state whose threshold is 7. -/
theorem SetLoggerLevel_out_of_range_counterexample :
    (0 ≤ init.logLevel ∧ init.logLevel ≤ 5) ∧
    ((Call.SetLoggerLevel 7).run (init, emptyWorld)).1.logLevel = 7 ∧
    ¬ ((Call.SetLoggerLevel 7).run (init, emptyWorld)).1.logLevel ≤ 5 := by
  decide

/-- C8, amended: the initial threshold is 0; every public operation other than
`SetLoggerLevel` with an argument outside 0..5 takes a state whose threshold is
in 0..5 to a state whose threshold is in 0..5; `SetLoggerLevel(n)` stores `n`
as it is. -/
theorem threshold_in_range_preserved :
    init.logLevel = 0 ∧
    (∀ (c : Call) (lg : rnLogger) (w : World), c.levelArgInRange →
      0 ≤ lg.logLevel ∧ lg.logLevel ≤ 5 →
      0 ≤ (c.run (lg, w)).1.logLevel ∧ (c.run (lg, w)).1.logLevel ≤ 5) ∧
    (∀ (n : Int) (lg : rnLogger) (w : World),
      ((Call.SetLoggerLevel n).run (lg, w)).1.logLevel = n) := by
  refine ⟨rfl, ?_, fun _ _ _ => rfl⟩
  intro c lg w hc h
  cases c with
  | Init os p n =>
    rcases Init_logLevel os lg w p n with e | e
    · simp only [Call.run, e]; exact h
    · simp only [Call.run, e]; decide
  | SetLoggerLevel level => exact hc
  | _ => exact h

/-- C8, amended, on the demonstration program's first steps: after a successful
`Init` and after `Close` the threshold is in 0..5. -/
theorem threshold_in_range_preserved_witness :
    (0 ≤ ((Call.Init sampleOS "log" "rnlog.log").run (init, emptyWorld)).1.logLevel ∧
      ((Call.Init sampleOS "log" "rnlog.log").run (init, emptyWorld)).1.logLevel ≤ 5) ∧
    (0 ≤ ((Call.Close sampleEnv).run (init, emptyWorld)).1.logLevel ∧
      ((Call.Close sampleEnv).run (init, emptyWorld)).1.logLevel ≤ 5) :=
  ⟨threshold_in_range_preserved.2.1 (Call.Init sampleOS "log" "rnlog.log") init emptyWorld
      trivial ⟨by decide, by decide⟩,
    threshold_in_range_preserved.2.1 (Call.Close sampleEnv) init emptyWorld
      trivial ⟨by decide, by decide⟩⟩

/-- C7, as stated, fails: with the file of `Init("log", "rnlog.log")` attached,
the record `Close` writes to standard output is not the DEBUG prefix followed by
`Logger closing...`; a newline follows. -/
theorem Close_record_counterexample :
    (Init sampleOS init emptyWorld "log" "rnlog.log").2.1.logFile = some 0 ∧
    (Close sampleEnv (Init sampleOS init emptyWorld "log" "rnlog.log").2.1
      (Init sampleOS init emptyWorld "log" "rnlog.log").2.2).stdout =
      ["[DEBUG][2024-03-07 09:05:01][main.main:14] Logger closing...\n"] ∧
    (Close sampleEnv (Init sampleOS init emptyWorld "log" "rnlog.log").2.1
      (Init sampleOS init emptyWorld "log" "rnlog.log").2.2).stdout ≠
      [makePrefix sampleEnv 1 ++ "Logger closing..."] := by
  decide

/-- C7, amended: `Close` writes if and only if a file is attached.  With a file
attached, under every threshold, it appends exactly one record to standard
output and none to standard error, then closes the handle, and leaves the logger
as it was; when the caller's short function name holds no `%` (or the caller is
unresolved) the record is the DEBUG prefix, then `Logger closing...`, then the
newline the log package appends.  With no file attached it writes nothing and
leaves logger and world unchanged. -/
theorem Close_writes_iff_file_attached (env : CallEnv) (lg : rnLogger) (hwf : lg.Wf)
    (w : World) :
    (∀ fd, lg.logFile = some fd →
      (Close env lg w).stdout =
        w.stdout ++ [outputBuf (Sprintf (makePrefix env 1 ++ "Logger closing...") [])] ∧
      (env.plainName →
        (Close env lg w).stdout =
          w.stdout ++ [makePrefix env 1 ++ "Logger closing..." ++ "\n"]) ∧
      (Close env lg w).stderr = w.stderr ∧
      (∀ f, w.files.get? fd = some f →
        ∃ f', (Close env lg w).files.get? fd = some f' ∧ f'.closed = true) ∧
      ((Call.Close env).run (lg, w)).1 = lg) ∧
    (lg.logFile = none → (Call.Close env).run (lg, w) = (lg, w)) ∧
    ((Close env lg w).stdout ≠ w.stdout ↔ lg.logFile ≠ none) := by
  have hsome : ∀ fd, lg.logFile = some fd →
      (Close env lg w).stdout =
        w.stdout ++ [outputBuf (Sprintf (makePrefix env 1 ++ "Logger closing...") [])] := by
    intro fd hfd
    simp only [Close, hfd]
    rw [(closeFile_streams fd _).1]
    exact (Write_out lg.out hwf.1 _ w).1
  have hnone : lg.logFile = none → Close env lg w = w := by
    intro h
    simp only [Close, h]
  refine ⟨?_, ?_, ?_⟩
  · intro fd hfd
    refine ⟨hsome fd hfd, ?_, ?_, ?_, rfl⟩
    · intro hp
      rw [hsome fd hfd, closing_record env hp]
    · simp only [Close, hfd]
      rw [(closeFile_streams fd _).2]
      exact (Write_out lg.out hwf.1 _ w).2
    · intro f hf
      simp only [Close, hfd]
      obtain ⟨f1, h1, _⟩ := Write_keeps_handles lg.out
        (outputBuf (Sprintf (makePrefix env 1 ++ "Logger closing...") [])) w fd f hf
      exact ⟨_, closeFile_closes fd _ f1 h1, rfl⟩
  · intro h
    simp only [Call.run, hnone h]
  · constructor
    · intro hne hn
      exact hne (by rw [hnone hn])
    · intro hne heq
      rcases hl : lg.logFile with _ | fd
      · exact hne hl
      · have := hsome fd hl
        rw [heq] at this
        have hlen := congrArg List.length this
        simp at hlen

/-- C7, amended, on the demonstration program: after `Init("log", "rnlog.log")`
`Close` writes the one closing record; on the fresh logger it does nothing. -/
theorem Close_writes_iff_file_attached_witness :
    (Close sampleEnv (Init sampleOS init emptyWorld "log" "rnlog.log").2.1
      (Init sampleOS init emptyWorld "log" "rnlog.log").2.2).stdout =
      [] ++ [makePrefix sampleEnv 1 ++ "Logger closing..." ++ "\n"] ∧
    (Call.Close sampleEnv).run (init, emptyWorld) = (init, emptyWorld) :=
  ⟨((Close_writes_iff_file_attached sampleEnv
      (Init sampleOS init emptyWorld "log" "rnlog.log").2.1
      ⟨Or.inr ⟨0, rfl⟩, Or.inr ⟨0, rfl⟩⟩
      (Init sampleOS init emptyWorld "log" "rnlog.log").2.2).1 0 rfl).2.1 sampleEnv_plainName,
    (Close_writes_iff_file_attached sampleEnv init ⟨Or.inl rfl, Or.inl rfl⟩ emptyWorld).2.1 rfl⟩

/-- C10, as stated, fails: `Log("x")` on the fresh logger formats the message
`x`, which does not end in a newline, and writes `x` followed by a newline. -/
theorem Log_appends_newline_counterexample :
    (Sprintf "x" []).data.getLast? ≠ some '\n' ∧
    (callLevel 0 sampleEnv init emptyWorld "x" []).stdout = ["x\n"] ∧
    "x\n".data.getLast? = some '\n' := by
  decide

/-- C10, amended: the log package appends one newline.  For every emitted call of
a level function whose formatted message does not end in a newline, the text
written is the formatted message followed by a newline for `Log`, and for the
other five, when the caller's short function name holds no `%` (or the caller is
unresolved), the prefix, which ends in one blank, followed by the formatted
message and a newline. -/
theorem record_is_text_plus_newline (L : Nat) (hL : L ≤ 5) (env : CallEnv) (lg : rnLogger)
    (hwf : lg.Wf) (w : World) (format : String) (v : List Arg)
    (hemit : lg.logLevel ≤ (L : Int))
    (hmsg : (Sprintf format v).data.getLast? ≠ some '\n') :
    (L = 0 →
      consoleOf L (callLevel L env lg w format v) =
        consoleOf L w ++ [Sprintf format v ++ "\n"]) ∧
    (1 ≤ L → env.plainName →
      consoleOf L (callLevel L env lg w format v) =
        consoleOf L w ++ [makePrefix env L ++ Sprintf format v ++ "\n"]) ∧
    (1 ≤ L → ∃ l, (makePrefix env L).data = l ++ [' ']) := by
  have hs := logPrintf_streams L lg hwf (formatOf L env format) v w
  have hcon : consoleOf L (callLevel L env lg w format v) =
      consoleOf L w ++ [outputBuf (Sprintf (formatOf L env format) v)] := by
    rw [callLevel_eq L hL, if_pos hemit]
    by_cases h3 : L ≤ 3
    · simp only [consoleOf, if_pos h3]
      exact (hs.1 h3).1
    · simp only [consoleOf, if_neg h3]
      exact (hs.2 (by omega)).1
  have hblank : 1 ≤ L → ∃ l, (makePrefix env L).data = l ++ [' '] :=
    fun _ => makePrefix_ends_in_blank env L (by omega) (by omega)
  refine ⟨?_, ?_, hblank⟩
  · intro h0
    rw [hcon]
    simp only [formatOf, if_pos h0]
    rw [outputBuf_of_no_newline _ hmsg]
  · intro h1 hp
    rw [hcon]
    have hne : ¬ L = 0 := by omega
    simp only [formatOf, if_neg hne]
    rw [Sprintf_with_makePrefix env hp]
    rw [outputBuf_of_no_newline]
    rw [String.data_append]
    apply getLast?_append_of_last _ _ _ hmsg
    intro _
    obtain ⟨l, hl⟩ := hblank h1
    rw [hl, List.getLast?_concat]
    decide

/-- C10, amended, on the fresh logger: `Log("x")` writes `x` and a newline,
`Warn("y")` writes the prefix, `y` and a newline. -/
theorem record_is_text_plus_newline_witness :
    consoleOf 0 (callLevel 0 sampleEnv init emptyWorld "x" []) =
      consoleOf 0 emptyWorld ++ [Sprintf "x" [] ++ "\n"] ∧
    consoleOf 3 (callLevel 3 sampleEnv init emptyWorld "y" []) =
      consoleOf 3 emptyWorld ++ [makePrefix sampleEnv 3 ++ Sprintf "y" [] ++ "\n"] :=
  ⟨(record_is_text_plus_newline 0 (by decide) sampleEnv init ⟨Or.inl rfl, Or.inl rfl⟩
      emptyWorld "x" [] (by decide) (by decide)).1 rfl,
    (record_is_text_plus_newline 3 (by decide) sampleEnv init ⟨Or.inl rfl, Or.inl rfl⟩
      emptyWorld "y" [] (by decide) (by decide)).2.1 (by decide) sampleEnv_plainName⟩

end Rnlog
